import Mathlib

/-!
Verification of the crypto-mcp-metrics scheduling core: a shallow embedding
of the rate limiter (`src/core/api_handler.py`), the request gateway retry
wrapper (`src/core/api_handler.py`), and the batch processor
(`src/core/claude/batch_processor.py`), together with theorems settling the
specification claims about them.

Time is modelled as an integer number of seconds; machine clocks only ever
move forward, so successive `now` readings are passed explicitly and assumed
monotone where a claim needs it.
-/

namespace CryptoMcp

/-! ## Configuration (`src/config.py`)

`Config.RATE_LIMIT_WINDOW` and `Config.MAX_REQUESTS_PER_WINDOW` transcribed
from the source; the dict lookup `MAX_REQUESTS_PER_WINDOW.get(service, 0)`
is modelled as an `Option`-valued table plus `Option.getD 0` at the use
site, mirroring the Python default. -/

namespace Config

def RATE_LIMIT_WINDOW : Int := 60

def MAX_REQUESTS_PER_WINDOW : String → Option Nat := fun s =>
  if s = "coingecko" then some 50
  else if s = "coinmarketcap" then some 30
  else if s = "social_searcher" then some 100
  else if s = "github" then some 5000
  else none

end Config

/-! ## RateLimiter (`src/core/api_handler.py`, lines 9-32)

`self.requests : Dict[str, list]` is modelled as a total function from
service names to timestamp lists, with the missing-key default `[]` baked
in (the Python code reads it through `self.requests.get(service, [])`).
The configuration (window seconds and per-service ceilings) is passed as an
explicit record; `check_limit` consults it exactly where the Python code
consults `Config`. `check_limit` returns the updated map together with
`some errorMessage` when it raises `APIError`, and `none` on success. -/

structure RLConfig where
  window : Int
  maxRequestsPerWindow : String → Option Nat

/-- The per-service configuration actually used by the repository. -/
def Config.rlConfig : RLConfig :=
  ⟨Config.RATE_LIMIT_WINDOW, Config.MAX_REQUESTS_PER_WINDOW⟩

/-- `RateLimiter.requests`: per-service recorded admission timestamps. -/
def RLState : Type := String → List Int

/-- `RateLimiter._cleanup_old_requests`: keep only timestamps strictly newer
than `now - window` for `service`; other services' lists are untouched. -/
def cleanup_old_requests (cfg : RLConfig) (service : String) (now : Int)
    (reqs : RLState) : RLState :=
  fun s =>
    if s = service then
      (reqs service).filter (fun ts => now - cfg.window < ts)
    else reqs s

/-- `RateLimiter.check_limit`: prune, compare the remaining count with the
service's ceiling (`0` when the service is not configured), and either fail
with the rate-limit `APIError` or record `now` as an admitted call. -/
def check_limit (cfg : RLConfig) (service : String) (now : Int)
    (reqs : RLState) : RLState × Option String :=
  let reqs1 := cleanup_old_requests cfg service now reqs
  let current_requests := (reqs1 service).length
  let max_requests := (cfg.maxRequestsPerWindow service).getD 0
  if max_requests ≤ current_requests then
    (reqs1, some ("Rate limit exceeded for " ++ service))
  else
    (fun s => if s = service then reqs1 s ++ [now] else reqs1 s, none)

/-- Run a sequence of admission checks for one service at the given times,
threading the limiter state; returns the final state and the per-check
success flags (`true` = admitted). -/
def admit_seq (cfg : RLConfig) (service : String) :
    List Int → RLState → RLState × List Bool
  | [], st => (st, [])
  | t :: ts, st =>
    let step := check_limit cfg service t st
    let rest := admit_seq cfg service ts step.1
    (rest.1, step.2.isNone :: rest.2)

/-! ## Request gateway (`src/core/api_handler.py`, lines 48-79)

`APIHandler.request` is decorated with
`backoff.on_exception(backoff.expo, (aiohttp.ClientError, asyncio.TimeoutError), max_tries=3)`.
Its body performs one network attempt; we model the attempt's observable
outcome on the i-th invocation by a script `Nat → AttemptOutcome`:

* `connError msg` — `aiohttp.ClientError` raised by the network attempt.
  The body's own `except aiohttp.ClientError` clause catches it and raises
  `APIError('API request failed: ' + msg)` instead, so what escapes the body
  is an `APIError`, not a `ClientError`.
* `timeout` — a bare `asyncio.TimeoutError`, which the body does not catch
  (it is not an `aiohttp.ClientError`), so it escapes as-is.
* `rateLimit msg` — the `RateLimiter.check_limit` call raised `APIError`.
* `http status body` — the request completed with an HTTP response; a
  status ≥ 400 makes the body raise
  `APIError('API request failed: {status} {body}')`, otherwise the decoded
  body is returned.

The decorator retries only exceptions that are instances of
`aiohttp.ClientError` or `asyncio.TimeoutError`; `APIError` derives from
plain `Exception`, so it is never retried. `gateway_request` returns the
final outcome together with the number of attempts consumed. -/

inductive AttemptOutcome where
  | connError (msg : String)
  | timeout
  | rateLimit (msg : String)
  | http (status : Nat) (body : String)
deriving DecidableEq

inductive GatewayExc where
  | apiError (msg : String)
  | timeoutError
deriving DecidableEq

/-- One execution of the decorated body of `APIHandler.request`. -/
def attempt_once : AttemptOutcome → Except GatewayExc String
  | .connError msg => .error (.apiError ("API request failed: " ++ msg))
  | .timeout => .error .timeoutError
  | .rateLimit msg => .error (.apiError msg)
  | .http status body =>
    if 400 ≤ status then
      .error (.apiError ("API request failed: " ++ toString status ++ " " ++ body))
    else .ok body

/-- Which escaped exceptions the `backoff` decorator's tuple
`(aiohttp.ClientError, asyncio.TimeoutError)` matches: `APIError` matches
neither class, a bare `asyncio.TimeoutError` matches the second. -/
def retryable : GatewayExc → Bool
  | .apiError _ => false
  | .timeoutError => true

/-- The decorator's retry loop: run the body; on a matching exception with
retries remaining, back off and run it again. `remaining` counts the
retries still allowed after the current attempt. -/
def backoff_run (script : Nat → AttemptOutcome) :
    Nat → Nat → Except GatewayExc String × Nat
  | attempt, 0 =>
    match attempt_once (script attempt) with
    | .ok body => (.ok body, attempt + 1)
    | .error e => (.error e, attempt + 1)
  | attempt, r + 1 =>
    match attempt_once (script attempt) with
    | .ok body => (.ok body, attempt + 1)
    | .error e =>
      if retryable e then backoff_run script (attempt + 1) r
      else (.error e, attempt + 1)

/-- `APIHandler.request` under `max_tries=3`: the first attempt plus at most
two retries. -/
def gateway_request (script : Nat → AttemptOutcome) :
    Except GatewayExc String × Nat :=
  backoff_run script 0 2

/-! ## Batch processor (`src/core/claude/batch_processor.py`)

### Completion futures

Each `BatchRequest.future` is an `asyncio.Future`; its observable state is
pending, fulfilled with a result, or failed with an exception.
`future.done()` is true in either terminal state. Results are an opaque
type `α`; stored exceptions are represented by their message strings. -/

inductive FutureState (α : Type) where
  | pending
  | fulfilled (v : α)
  | failed (e : String)
deriving DecidableEq

/-- `asyncio.Future.done()`. -/
def FutureState.done {α : Type} : FutureState α → Bool
  | .pending => false
  | _ => true

/-! ### Batch collection (`_collect_batch`, lines 72-93)

The loop repeatedly calls `asyncio.wait_for(self.queue.get(), timeout=self.batch_timeout)`
and, after appending an item, breaks once
`(datetime.now() - start_time).total_seconds() >= self.batch_timeout`.
We model the queue's timing behaviour by the list `gaps`: `gaps[k]` is how
long the (k+1)-th `queue.get()` would take to produce an item (time from
the start of that wait until the item is available); when the list is
exhausted no further item ever arrives. A wait whose gap exceeds the
`wait_for` timeout is cancelled after consuming the full timeout
(`asyncio.TimeoutError`). `collect_batch` returns the number of items
collected and the total elapsed collection time. -/

def collect_go (batch_size batch_timeout : Nat) :
    List Nat → Nat → Nat → Nat × Nat
  | gaps, count, elapsed =>
    if count < batch_size then
      match gaps with
      | [] => (count, elapsed + batch_timeout)
      | g :: rest =>
        if g ≤ batch_timeout then
          let elapsed1 := elapsed + g
          if batch_timeout ≤ elapsed1 then (count + 1, elapsed1)
          else collect_go batch_size batch_timeout rest (count + 1) elapsed1
        else (count, elapsed + batch_timeout)
    else (count, elapsed)

/-- `BatchProcessor._collect_batch`, starting from an empty batch at
`start_time`. -/
def collect_batch (batch_size batch_timeout : Nat) (gaps : List Nat) :
    Nat × Nat :=
  collect_go batch_size batch_timeout gaps 0 0

/-! ### Response splitting and distribution (lines 95-139)

The downstream response is a dict; the scheduler only reads its
`'results'` entry, so a response is modelled as `Option (List α)`: `none`
when the key is absent, `some rs` when present. The downstream call
itself may raise; `_process_batch` wraps any exception into
`BatchProcessingError('Failed to process batch: ...')`. -/

/-- `BatchProcessor._split_response`. -/
def split_response {α : Type} (results : Option (List α)) (batch_size : Nat) :
    Except String (List α) :=
  match results with
  | none => .error "Invalid batch response format"
  | some rs =>
    if rs.length = batch_size then .ok rs
    else .error "Invalid batch response format"

/-- `BatchProcessor._process_batch` on a batch of `n` requests, given the
outcome of `client.process_request(combined_context)`: either the exception
message it raised or the response dict's `'results'` entry. -/
def process_batch {α : Type} (call : Except String (Option (List α)))
    (n : Nat) : Except String (List α) :=
  match call with
  | .error e => .error ("Failed to process batch: " ++ e)
  | .ok resp =>
    match split_response resp n with
    | .ok rs => .ok rs
    | .error m => .error ("Failed to process batch: " ++ m)

/-- `BatchProcessor._distribute_results`: `zip` pairs requests with results
(stopping at the shorter list); a future that is already done is left
untouched, a pending one is fulfilled with its positional result. -/
def distribute_results {α : Type} :
    List (FutureState α) → List α → List (FutureState α)
  | [], _ => []
  | f :: batch, [] => f :: batch
  | f :: batch, r :: results =>
    (if f.done then f else .fulfilled r) :: distribute_results batch results

/-! ### Individual fallback (`_handle_batch_error` and
`_process_with_retry`, lines 141-168)

Each request's fallback behaviour is driven by its own attempt script
`Nat → Except String α`: the outcome of `client.process_request(request.data)`
on the given (0-based) attempt number. `process_with_retry` returns the
final outcome together with the list of backoff delays slept
(`2 ** attempt` before each re-attempt). -/

/-- `BatchProcessor._process_with_retry`. -/
def process_with_retry {α : Type} (f : Nat → Except String α)
    (max_retries : Nat) : Nat → Except String α × List Nat
  | attempt =>
    match f attempt with
    | .ok r => (.ok r, [])
    | .error e =>
      if h : attempt < max_retries then
        let rest := process_with_retry f max_retries (attempt + 1)
        (rest.1, 2 ^ attempt :: rest.2)
      else (.error e, [])
termination_by attempt => max_retries - attempt
decreasing_by omega

/-- The per-request body of `_handle_batch_error`'s loop: skip a done
future; otherwise fulfil with the retried result or fail with the raised
exception. -/
def handle_one {α : Type} (max_retries : Nat)
    (req : FutureState α × (Nat → Except String α)) : FutureState α :=
  if req.1.done then req.1
  else
    match (process_with_retry req.2 max_retries 0).1 with
    | .ok r => .fulfilled r
    | .error e => .failed e

/-- `BatchProcessor._handle_batch_error`: every request in the batch is
processed independently through the fallback path. -/
def handle_batch_error {α : Type} (max_retries : Nat)
    (batch : List (FutureState α × (Nat → Except String α))) :
    List (FutureState α) :=
  batch.map (handle_one max_retries)

/-- One iteration of `_process_batches` on a collected batch: run the
combined call, distribute positionally on success, and fall back to
per-item processing on any batch failure. -/
def process_batch_iteration {α : Type} (max_retries : Nat)
    (batch : List (FutureState α × (Nat → Except String α)))
    (call : Except String (Option (List α))) : List (FutureState α) :=
  match process_batch call batch.length with
  | .ok results => distribute_results (batch.map Prod.fst) results
  | .error _ => handle_batch_error max_retries batch

/-! ## Priority queue entries (`submit`, lines 33-51)

`submit` enqueues the tuple `(priority, request)` into an
`asyncio.PriorityQueue`, whose `_put` is `heapq.heappush`. `BatchRequest`
is a plain `@dataclass` (field-wise `==`, no `__lt__`). Python's tuple
`<` scans for the first index where the elements are not `==` and applies
`<` there; when the priorities are equal it therefore evaluates
`request1 < request2`, which raises `TypeError` for objects without an
ordering. `entry_lt` returns that three-way outcome. -/

structure BatchRequestData where
  rid : String
  data : String
  priority : Int
  future : Nat
deriving DecidableEq

def QueueEntry : Type := Int × BatchRequestData

instance : DecidableEq QueueEntry := by
  unfold QueueEntry
  infer_instance

/-- Python `<` on `(priority, request)` tuples: decided by the priorities
when they differ, `False` when the tuples are fully equal, and a
`TypeError` when the priorities tie on distinct requests. -/
def entry_lt (a b : QueueEntry) : Except String Bool :=
  if a.1 ≠ b.1 then .ok (decide (a.1 < b.1))
  else if a.2 = b.2 then .ok false
  else .error "TypeError: unorderable BatchRequest instances"

/-- `heapq._siftdown(heap, startpos, pos)` with `newitem = heap[pos]`:
walk `newitem` up while it compares strictly below its parent. Index
reads are in range on every real call; `getD` supplies `newitem` as the
out-of-range placeholder. -/
def siftdown (newitem : QueueEntry) (heap : List QueueEntry)
    (startpos : Nat) : Nat → Except String (List QueueEntry)
  | pos =>
    if h : startpos < pos then
      let parentpos := (pos - 1) / 2
      let parent := heap.getD parentpos newitem
      match entry_lt newitem parent with
      | .error e => .error e
      | .ok true => siftdown newitem (heap.set pos parent) startpos parentpos
      | .ok false => .ok (heap.set pos newitem)
    else .ok (heap.set pos newitem)
termination_by pos => pos
decreasing_by
  have hpos : 0 < pos := Nat.lt_of_le_of_lt (Nat.zero_le startpos) h
  calc (pos - 1) / 2 ≤ pos - 1 := Nat.div_le_self _ _
    _ < pos := by omega

/-- `heapq.heappush`: append the new entry and sift it toward the root. -/
def heappush (heap : List QueueEntry) (item : QueueEntry) :
    Except String (List QueueEntry) :=
  let heap1 := heap ++ [item]
  siftdown item heap1 0 (heap1.length - 1)

/-! ## Derived definitions used by the theorems -/

/-- A limiter state that has recorded timestamps for one service only. -/
def single_service_state (s : String) (l : List Int) : RLState :=
  fun s1 => if s1 = s then l else []

/-- A configuration giving every service the same ceiling `N` and window
`W`, used to state the sliding-window property for arbitrary `N` and `W`. -/
def uniform_config (N : Nat) (W : Int) : RLConfig :=
  ⟨W, fun _ => some N⟩

/-! ## Rate limiter lemmas -/

theorem single_service_state_self (s : String) (l : List Int) :
    single_service_state s l s = l := by
  simp [single_service_state]

theorem single_service_state_nil (s : String) :
    single_service_state s [] = (fun _ => []) := by
  funext s1
  simp [single_service_state]

theorem check_limit_snd (cfg : RLConfig) (s : String) (now : Int)
    (reqs : RLState) :
    (check_limit cfg s now reqs).2 =
      if (cfg.maxRequestsPerWindow s).getD 0 ≤
          ((reqs s).filter (fun ts => now - cfg.window < ts)).length then
        some ("Rate limit exceeded for " ++ s)
      else none := by
  simp only [check_limit, cleanup_old_requests, eq_self_iff_true, if_true]
  rw [apply_ite Prod.snd]

theorem check_limit_fst_fail (cfg : RLConfig) (s : String) (now : Int)
    (reqs : RLState)
    (h : (cfg.maxRequestsPerWindow s).getD 0 ≤
      ((reqs s).filter (fun ts => now - cfg.window < ts)).length) :
    (check_limit cfg s now reqs).1 = cleanup_old_requests cfg s now reqs := by
  simp only [check_limit, cleanup_old_requests, eq_self_iff_true, if_true]
  rw [if_pos h]

theorem check_limit_fst_ok (cfg : RLConfig) (s : String) (now : Int)
    (reqs : RLState)
    (h : ¬ (cfg.maxRequestsPerWindow s).getD 0 ≤
      ((reqs s).filter (fun ts => now - cfg.window < ts)).length) :
    (check_limit cfg s now reqs).1 = fun s1 =>
      if s1 = s then (reqs s).filter (fun ts => now - cfg.window < ts) ++ [now]
      else reqs s1 := by
  simp only [check_limit, cleanup_old_requests, eq_self_iff_true, if_true]
  rw [if_neg h]
  funext s1
  by_cases h1 : s1 = s <;> simp [h1]

theorem cleanup_cleanup (cfg : RLConfig) (s : String) (now now' : Int)
    (h : now ≤ now') (reqs : RLState) :
    cleanup_old_requests cfg s now' (cleanup_old_requests cfg s now reqs) =
      cleanup_old_requests cfg s now' reqs := by
  funext s1
  unfold cleanup_old_requests
  by_cases h1 : s1 = s
  · simp only [h1, eq_self_iff_true, if_true]
    rw [List.filter_filter]
    have hpt : ∀ a : Int,
        (decide (now' - cfg.window < a) && decide (now - cfg.window < a)) =
          decide (now' - cfg.window < a) := by
      intro a
      by_cases ha : now' - cfg.window < a
      · have hb : now - cfg.window < a := by omega
        simp [ha, hb]
      · simp [ha]
    simp only [hpt]
  · simp [h1]

theorem uniform_config_window (N : Nat) (W : Int) :
    (uniform_config N W).window = W := rfl

theorem uniform_config_max (N : Nat) (W : Int) (s : String) :
    (uniform_config N W).maxRequestsPerWindow s = some N := rfl

theorem filter_replicate_zero_keep (m : Nat) (W t : Int) (ht : t < W) :
    (List.replicate m (0:Int)).filter (fun ts => decide (t - W < ts)) =
      List.replicate m 0 := by
  rw [List.filter_replicate]
  simp only [decide_eq_true_eq]
  rw [if_pos (by omega)]

theorem filter_replicate_zero_drop (m : Nat) (W t : Int) (ht : W ≤ t) :
    (List.replicate m (0:Int)).filter (fun ts => decide (t - W < ts)) = [] := by
  rw [List.filter_replicate]
  simp only [decide_eq_true_eq]
  rw [if_neg (by omega)]

/-- One successful admission at time `0` on a single-service state holding
`m` admitted timestamps, with ceiling `N` and a positive window. -/
theorem check_limit_zero_step (N : Nat) (W : Int) (s : String) (m : Nat)
    (hW : 0 < W) (hm : m < N) :
    check_limit (uniform_config N W) s 0
      (single_service_state s (List.replicate m 0)) =
      (single_service_state s (List.replicate (m + 1) 0), none) := by
  have hfilt : ((single_service_state s (List.replicate m 0)) s).filter
      (fun ts => decide (0 - (uniform_config N W).window < ts)) =
      List.replicate m 0 := by
    rw [single_service_state_self, uniform_config_window]
    exact filter_replicate_zero_keep m W 0 hW
  have hcond : ¬ ((uniform_config N W).maxRequestsPerWindow s).getD 0 ≤
      (((single_service_state s (List.replicate m 0)) s).filter
        (fun ts => decide (0 - (uniform_config N W).window < ts))).length := by
    rw [hfilt, uniform_config_max]
    simp only [List.length_replicate, Option.getD_some]
    omega
  have h1 := check_limit_fst_ok (uniform_config N W) s 0
    (single_service_state s (List.replicate m 0)) hcond
  have h2 := check_limit_snd (uniform_config N W) s 0
    (single_service_state s (List.replicate m 0))
  rw [if_neg hcond] at h2
  refine Prod.ext ?_ h2
  rw [h1]
  funext s1
  by_cases hs : s1 = s
  · simp only [hs, eq_self_iff_true, if_true]
    rw [hfilt]
    rw [single_service_state_self]
    exact (List.replicate_succ' m 0).symm
  · simp [single_service_state, hs]

/-- Running `k` admissions at time `0` with ceiling `N` starting from `m`
recorded admissions: all succeed while `m + k ≤ N`. -/
theorem admit_seq_zero_run (N : Nat) (W : Int) (s : String) (hW : 0 < W) :
    ∀ (k m : Nat), m + k ≤ N →
      admit_seq (uniform_config N W) s (List.replicate k 0)
        (single_service_state s (List.replicate m 0)) =
        (single_service_state s (List.replicate (m + k) 0),
          List.replicate k true) := by
  intro k
  induction k with
  | zero => intro m _; simp [admit_seq]
  | succ k ih =>
    intro m hmk
    rw [List.replicate_succ]
    rw [admit_seq]
    rw [check_limit_zero_step N W s m hW (by omega)]
    have hrest := ih (m + 1) (by omega)
    simp only [hrest]
    have harith : m + 1 + k = m + (k + 1) := by omega
    rw [harith]
    rfl

theorem check_limit_congr (cfg : RLConfig) (s : String) (now : Int)
    (X Y : RLState)
    (h : cleanup_old_requests cfg s now X = cleanup_old_requests cfg s now Y) :
    check_limit cfg s now X = check_limit cfg s now Y := by
  unfold check_limit
  rw [h]

/-- C5: with ceiling `N` and window `W`, after pruning, `N` admissions at
`t = 0` all succeed, an admission at any `0 ≤ t < W` then fails with the
rate-limit error, and an admission at `t ≥ W` (once the `t = 0` timestamps
have left the trailing window) succeeds again. -/
theorem C5_rate_limiter_sliding_window (N : Nat) (W : Int) (s : String)
    (hN : 0 < N) (hW : 0 < W) :
    (admit_seq (uniform_config N W) s (List.replicate N 0)
        (fun _ => [])).2 = List.replicate N true ∧
    (∀ t : Int, 0 ≤ t → t < W →
      (check_limit (uniform_config N W) s t
        (admit_seq (uniform_config N W) s (List.replicate N 0)
          (fun _ => [])).1).2.isSome = true) ∧
    (∀ t : Int, W ≤ t →
      (check_limit (uniform_config N W) s t
        (admit_seq (uniform_config N W) s (List.replicate N 0)
          (fun _ => [])).1).2 = none) := by
  have hinit : single_service_state s (List.replicate 0 (0:Int)) =
      (fun _ => []) := by
    rw [List.replicate_zero]
    exact single_service_state_nil s
  have hrun := admit_seq_zero_run N W s hW N 0 (by omega)
  rw [hinit] at hrun
  rw [Nat.zero_add] at hrun
  have hfst : (admit_seq (uniform_config N W) s (List.replicate N 0)
      (fun _ => [])).1 = single_service_state s (List.replicate N 0) := by
    rw [hrun]
  refine ⟨by rw [hrun], ?_, ?_⟩
  · intro t ht0 htW
    rw [hfst]
    rw [check_limit_snd]
    rw [single_service_state_self, uniform_config_window, uniform_config_max]
    rw [filter_replicate_zero_keep N W t htW]
    simp only [Option.getD_some, List.length_replicate]
    rw [if_pos (le_refl N)]
    rfl
  · intro t htW
    rw [hfst]
    rw [check_limit_snd]
    rw [single_service_state_self, uniform_config_window, uniform_config_max]
    rw [filter_replicate_zero_drop N W t htW]
    simp only [Option.getD_some, List.length_nil]
    rw [if_neg (by omega)]

/-- C5 witness: the spec's concrete instance, ceiling 2 and window 60. -/
theorem C5_rate_limiter_sliding_window_witness :
    (0:Nat) < 2 ∧ (0:Int) < 60 ∧
    ((admit_seq (uniform_config 2 60) "coingecko" (List.replicate 2 0)
        (fun _ => [])).2 = List.replicate 2 true ∧
    (∀ t : Int, 0 ≤ t → t < 60 →
      (check_limit (uniform_config 2 60) "coingecko" t
        (admit_seq (uniform_config 2 60) "coingecko" (List.replicate 2 0)
          (fun _ => [])).1).2.isSome = true) ∧
    (∀ t : Int, 60 ≤ t →
      (check_limit (uniform_config 2 60) "coingecko" t
        (admit_seq (uniform_config 2 60) "coingecko" (List.replicate 2 0)
          (fun _ => [])).1).2 = none)) :=
  ⟨by decide, by decide,
    C5_rate_limiter_sliding_window 2 60 "coingecko" (by decide) (by decide)⟩

/-- C9: a rejected admission records nothing: the limiter state after a
failed check equals the state after pruning alone, and any later check (at
a time `now' ≥ now`) behaves exactly as if the failed attempt had never
happened. -/
theorem C9_rejected_admission_consumes_no_budget (cfg : RLConfig)
    (s : String) (now : Int) (reqs : RLState)
    (hfail : (check_limit cfg s now reqs).2.isSome = true) :
    (check_limit cfg s now reqs).1 = cleanup_old_requests cfg s now reqs ∧
    ∀ now' : Int, now ≤ now' →
      check_limit cfg s now' (check_limit cfg s now reqs).1 =
        check_limit cfg s now' reqs := by
  have hsnd := check_limit_snd cfg s now reqs
  by_cases hc : (cfg.maxRequestsPerWindow s).getD 0 ≤
      ((reqs s).filter (fun ts => now - cfg.window < ts)).length
  · refine ⟨check_limit_fst_fail cfg s now reqs hc, ?_⟩
    intro now' hle
    rw [check_limit_fst_fail cfg s now reqs hc]
    exact check_limit_congr cfg s now' _ reqs
      (cleanup_cleanup cfg s now now' hle reqs)
  · rw [if_neg hc] at hsnd
    rw [hsnd] at hfail
    simp at hfail

/-- C9 witness: ceiling 1, one recorded admission at time 0, rejected
re-admission attempt at time 5 inside the window. -/
theorem C9_rejected_admission_consumes_no_budget_witness :
    (check_limit (uniform_config 1 60) "coingecko" 5
        (single_service_state "coingecko" [0])).2.isSome = true ∧
    ((check_limit (uniform_config 1 60) "coingecko" 5
        (single_service_state "coingecko" [0])).1 =
      cleanup_old_requests (uniform_config 1 60) "coingecko" 5
        (single_service_state "coingecko" [0]) ∧
    ∀ now' : Int, (5:Int) ≤ now' →
      check_limit (uniform_config 1 60) "coingecko" now'
          (check_limit (uniform_config 1 60) "coingecko" 5
            (single_service_state "coingecko" [0])).1 =
        check_limit (uniform_config 1 60) "coingecko" now'
          (single_service_state "coingecko" [0])) := by
  have hfail : (check_limit (uniform_config 1 60) "coingecko" 5
      (single_service_state "coingecko" [0])).2.isSome = true := by
    rw [check_limit_snd]
    norm_num [single_service_state, uniform_config]
  exact ⟨hfail,
    C9_rejected_admission_consumes_no_budget (uniform_config 1 60)
      "coingecko" 5 (single_service_state "coingecko" [0]) hfail⟩

/-- C10: a service with no configured ceiling defaults to a ceiling of 0,
so every admission attempt for it is rejected, at every time and from every
limiter state. -/
theorem C10_unknown_service_always_rejected (s : String)
    (h : Config.MAX_REQUESTS_PER_WINDOW s = none) :
    ∀ (now : Int) (reqs : RLState),
      (check_limit Config.rlConfig s now reqs).2.isSome = true := by
  intro now reqs
  rw [check_limit_snd]
  have hmax : (Config.rlConfig.maxRequestsPerWindow s).getD 0 = 0 := by
    show (Config.MAX_REQUESTS_PER_WINDOW s).getD 0 = 0
    rw [h]
    rfl
  rw [hmax]
  rw [if_pos (Nat.zero_le _)]
  rfl

/-- C10 witness: the unconfigured service name `binance` is always
rejected, here at time 0 on an empty limiter. -/
theorem C10_unknown_service_always_rejected_witness :
    Config.MAX_REQUESTS_PER_WINDOW "binance" = none ∧
    (check_limit Config.rlConfig "binance" 0 (fun _ => [])).2.isSome = true :=
  ⟨by decide,
    C10_unknown_service_always_rejected "binance" (by decide) 0 (fun _ => [])⟩

/-! ## Batch collection timing (C2) -/

theorem collect_go_elapsed_lt (bs T : Nat) (hT : 0 < T) :
    ∀ (gaps : List Nat) (count elapsed : Nat), elapsed < T →
      (collect_go bs T gaps count elapsed).2 < 2 * T := by
  intro gaps
  induction gaps with
  | nil =>
    intro count elapsed he
    rw [collect_go]
    split <;> simp <;> omega
  | cons g rest ih =>
    intro count elapsed he
    rw [collect_go]
    by_cases hc : count < bs
    · rw [if_pos hc]
      by_cases hg : g ≤ T
      · rw [if_pos hg]
        by_cases hfull : T ≤ elapsed + g
        · simp only [if_pos hfull]
          omega
        · simp only [if_neg hfull]
          exact ih (count + 1) (elapsed + g) (by omega)
      · rw [if_neg hg]
        simp
        omega
    · rw [if_neg hc]
      simp
      omega

/-- C2 counterexample: with `batchSize = 3` and `batchTimeout = 10`, two
items arriving after 9 time units each are both collected, and the total
collection time is 18 > 10 — each `wait_for` is given the full
`batch_timeout`, not the remaining budget, so the claimed bound fails. -/
theorem C2_collection_exceeds_timeout_counterexample :
    collect_batch 3 10 [9, 9] = (2, 18) ∧
    10 < (collect_batch 3 10 [9, 9]).2 := by
  decide

/-- C2 amended: each wait is bounded by the full `batchTimeout` (not the
remaining budget), and the loop breaks once the elapsed time reaches
`batchTimeout` after an item is appended, so the total duration of
collecting one batch is strictly below `2 * batchTimeout` (but can exceed
`batchTimeout`). -/
theorem C2_collection_bound_amended (batch_size batch_timeout : Nat)
    (gaps : List Nat) (hT : 0 < batch_timeout) :
    (collect_batch batch_size batch_timeout gaps).2 < 2 * batch_timeout :=
  collect_go_elapsed_lt batch_size batch_timeout hT gaps 0 0 hT

/-- C2 amended witness: the counterexample run stays below twice the
timeout. -/
theorem C2_collection_bound_amended_witness :
    (0:Nat) < 10 ∧ (collect_batch 3 10 [9, 9]).2 < 2 * 10 :=
  ⟨by decide, C2_collection_bound_amended 3 10 [9, 9] (by decide)⟩

/-! ## Queue ordering (C3) -/

/-- C3: pushing a second entry with an equal priority onto the priority
queue's heap compares the two `BatchRequest` dataclass instances, which
define no ordering: the push raises `TypeError` instead of providing FIFO
service among equal priorities. Entries with distinct priorities are
ordered by priority as specified. -/
theorem C3_equal_priority_push_typeerror :
    heappush [((0:Int), BatchRequestData.mk "r1" "payload-a" 0 0)]
        ((0:Int), BatchRequestData.mk "r2" "payload-b" 0 1) =
      .error "TypeError: unorderable BatchRequest instances" ∧
    heappush [((0:Int), BatchRequestData.mk "r1" "payload-a" 0 0)]
        ((1:Int), BatchRequestData.mk "r2" "payload-b" 1 1) =
      .ok [((0:Int), BatchRequestData.mk "r1" "payload-a" 0 0),
        ((1:Int), BatchRequestData.mk "r2" "payload-b" 1 1)] := by
  constructor <;> simp [heappush, siftdown, entry_lt]

/-! ## Gateway retry policy (C4) -/

/-- C4 counterexample: a connection error on the first attempt is wrapped
into a terminal `APIError` by the body's own `except aiohttp.ClientError`
clause before the backoff decorator can match it, so it is surfaced after a
single attempt even though a retry would have succeeded (attempt 1 returns
HTTP 200). -/
theorem C4_connection_error_not_retried_counterexample :
    gateway_request (fun i => if i = 0 then .connError "Connection refused"
        else .http 200 "ok") =
      (.error (.apiError "API request failed: Connection refused"), 1) ∧
    attempt_once (.http 200 "ok") = .ok "ok" :=
  ⟨rfl, rfl⟩

/-- C4 amended: only bare timeouts are transient for this layer — they are
retried (with exponential backoff) up to the fixed max-attempt count of 3;
a connection error is converted to a terminal `APIError` and surfaced
immediately without retry, and an HTTP response with status ≥ 400 is
likewise converted to a terminal `APIError` carrying the status and body
and surfaced immediately without retry. -/
theorem C4_gateway_retry_policy_amended :
    (∀ (script : Nat → AttemptOutcome) (m : String),
      script 0 = .connError m →
      gateway_request script =
        (.error (.apiError ("API request failed: " ++ m)), 1)) ∧
    (∀ (script : Nat → AttemptOutcome) (st : Nat) (b : String),
      script 0 = .http st b → 400 ≤ st →
      gateway_request script =
        (.error (.apiError ("API request failed: " ++ toString st ++ " " ++ b)),
          1)) ∧
    (∀ (script : Nat → AttemptOutcome) (k st : Nat) (b : String),
      k < 3 → (∀ j, j < k → script j = .timeout) →
      script k = .http st b → st < 400 →
      gateway_request script = (.ok b, k + 1)) ∧
    (∀ script : Nat → AttemptOutcome,
      (∀ j, j < 3 → script j = .timeout) →
      gateway_request script = (.error .timeoutError, 3)) := by
  refine ⟨?_, ?_, ?_, ?_⟩
  · intro script m h0
    simp [gateway_request, backoff_run, h0, attempt_once, retryable]
  · intro script st b h0 h400
    simp [gateway_request, backoff_run, h0, attempt_once, if_pos h400,
      retryable]
  · intro script k st b hk hpre hk2 hlt
    have h400 : ¬ 400 ≤ st := by omega
    interval_cases k
    · simp [gateway_request, backoff_run, hk2, attempt_once, if_neg h400]
    · have h0 := hpre 0 (by omega)
      simp [gateway_request, backoff_run, h0, attempt_once, retryable,
        hk2, if_neg h400]
    · have h0 := hpre 0 (by omega)
      have h1 := hpre 1 (by omega)
      simp [gateway_request, backoff_run, h0, h1, attempt_once,
        retryable, hk2, if_neg h400]
  · intro script hall
    have h0 := hall 0 (by omega)
    have h1 := hall 1 (by omega)
    have h2 := hall 2 (by omega)
    simp only [gateway_request, backoff_run, h0, h1, h2, attempt_once,
      retryable, if_true]

/-- C4 amended witness: concrete scripts exercising all four clauses —
an immediate connection error, an immediate HTTP 500, two timeouts
followed by HTTP 200, and three timeouts. -/
theorem C4_gateway_retry_policy_amended_witness :
    gateway_request (fun _ => .connError "boom") =
      (.error (.apiError "API request failed: boom"), 1) ∧
    gateway_request (fun _ => .http 500 "oops") =
      (.error (.apiError "API request failed: 500 oops"), 1) ∧
    gateway_request (fun i => if i < 2 then .timeout else .http 200 "ok") =
      (.ok "ok", 3) ∧
    gateway_request (fun _ => .timeout) = (.error .timeoutError, 3) :=
  ⟨C4_gateway_retry_policy_amended.1 (fun _ => .connError "boom") "boom" rfl,
    C4_gateway_retry_policy_amended.2.1 (fun _ => .http 500 "oops") 500 "oops"
      rfl (by decide),
    C4_gateway_retry_policy_amended.2.2.1
      (fun i => if i < 2 then .timeout else .http 200 "ok") 2 200 "ok"
      (by decide) (by decide) (by decide) (by decide),
    C4_gateway_retry_policy_amended.2.2.2 (fun _ => .timeout)
      (fun j _ => rfl)⟩

/-! ## Distribution and fallback lemmas -/

theorem distribute_results_getElem {α : Type} :
    ∀ (batch : List (FutureState α)) (results : List α) (i : Nat)
      (p : FutureState α) (r : α),
      batch[i]? = some p → results[i]? = some r →
      (distribute_results batch results)[i]? =
        some (if p.done then p else .fulfilled r) := by
  intro batch
  induction batch with
  | nil => intro results i p r hb _; simp at hb
  | cons f bs ih =>
    intro results i p r hb hr
    match results with
    | [] => simp at hr
    | r0 :: rs =>
      match i with
      | 0 =>
        simp only [List.getElem?_cons_zero, Option.some_inj] at hb hr
        subst hb
        subst hr
        simp only [distribute_results, List.getElem?_cons_zero]
      | i + 1 =>
        simp only [List.getElem?_cons_succ] at hb hr
        simp only [distribute_results, List.getElem?_cons_succ]
        exact ih rs i p r hb hr

theorem distribute_results_done_preserved {α : Type} :
    ∀ (batch : List (FutureState α)) (results : List α) (i : Nat)
      (p : FutureState α),
      batch[i]? = some p → p.done = true →
      (distribute_results batch results)[i]? = some p := by
  intro batch
  induction batch with
  | nil => intro results i p hb _; simp at hb
  | cons f bs ih =>
    intro results i p hb hd
    match results with
    | [] => rw [distribute_results]; exact hb
    | r0 :: rs =>
      match i with
      | 0 =>
        simp only [List.getElem?_cons_zero, Option.some_inj] at hb
        subst hb
        simp only [distribute_results, List.getElem?_cons_zero]
        rw [if_pos hd]
      | i + 1 =>
        simp only [List.getElem?_cons_succ] at hb
        simp only [distribute_results, List.getElem?_cons_succ]
        exact ih rs i p hb hd

theorem distribute_results_all_done {α : Type} :
    ∀ (batch : List (FutureState α)) (results : List α),
      results.length = batch.length →
      ∀ st ∈ distribute_results batch results, st.done = true := by
  intro batch
  induction batch with
  | nil => intro results _ st hst; simp [distribute_results] at hst
  | cons f bs ih =>
    intro results hlen st hst
    match results with
    | [] => simp at hlen
    | r0 :: rs =>
      rw [distribute_results] at hst
      rcases List.mem_cons.mp hst with hhead | htail
      · subst hhead
        by_cases hd : f.done
        · rw [if_pos hd]; exact hd
        · rw [if_neg hd]; rfl
      · exact ih rs (by simpa using hlen) st htail

theorem handle_one_done {α : Type} (max_retries : Nat)
    (req : FutureState α × (Nat → Except String α)) :
    (handle_one max_retries req).done = true := by
  unfold handle_one
  by_cases hd : req.1.done
  · rw [if_pos hd]; exact hd
  · rw [if_neg hd]
    cases (process_with_retry req.2 max_retries 0).1 <;> rfl

theorem handle_one_preserves_done {α : Type} (max_retries : Nat)
    (req : FutureState α × (Nat → Except String α))
    (hd : req.1.done = true) : handle_one max_retries req = req.1 := by
  unfold handle_one
  rw [if_pos hd]

theorem handle_batch_error_getElem {α : Type} (max_retries : Nat)
    (batch : List (FutureState α × (Nat → Except String α))) (i : Nat)
    (p : FutureState α × (Nat → Except String α)) (hb : batch[i]? = some p) :
    (handle_batch_error max_retries batch)[i]? =
      some (handle_one max_retries p) := by
  unfold handle_batch_error
  rw [List.getElem?_map, hb]
  rfl

/-- C1: exactly-once resolution. Neither the positional distribution nor
the per-item fallback touches a completion slot that is already done, and
once the scheduler has handled a batch — by distributing a shape-matching
result list or by running the per-item fallback — every slot in the batch
is in a terminal state. -/
theorem C1_exactly_once_resolution (α : Type) :
    (∀ (batch : List (FutureState α)) (results : List α) (i : Nat)
      (p : FutureState α), batch[i]? = some p → p.done = true →
      (distribute_results batch results)[i]? = some p) ∧
    (∀ (max_retries : Nat)
      (batch : List (FutureState α × (Nat → Except String α))) (i : Nat)
      (p : FutureState α × (Nat → Except String α)),
      batch[i]? = some p → p.1.done = true →
      (handle_batch_error max_retries batch)[i]? = some p.1) ∧
    (∀ (batch : List (FutureState α)) (results : List α),
      results.length = batch.length →
      ∀ st ∈ distribute_results batch results, st.done = true) ∧
    (∀ (max_retries : Nat)
      (batch : List (FutureState α × (Nat → Except String α))),
      ∀ st ∈ handle_batch_error max_retries batch, st.done = true) := by
  refine ⟨?_, ?_, distribute_results_all_done, ?_⟩
  · exact distribute_results_done_preserved
  · intro mr batch i p hb hd
    rw [handle_batch_error_getElem mr batch i p hb]
    rw [handle_one_preserves_done mr p hd]
  · intro mr batch st hst
    rcases List.mem_map.mp hst with ⟨req, _, hreq⟩
    rw [← hreq]
    exact handle_one_done mr req

/-- C1 witness: a slot already fulfilled with 9 is untouched by both
paths, and after distribution and after fallback every slot is done. -/
theorem C1_exactly_once_resolution_witness :
    (distribute_results [FutureState.fulfilled 9] [5])[0]? =
      some (FutureState.fulfilled 9) ∧
    (handle_batch_error 3 [(FutureState.fulfilled 9, fun _ => .ok 5)])[0]? =
      some (FutureState.fulfilled 9) ∧
    (∀ st ∈ distribute_results [FutureState.pending, FutureState.fulfilled 9]
      [5, 6], st.done = true) ∧
    (∀ st ∈ handle_batch_error 3
      [((FutureState.pending : FutureState Nat), fun _ => .error "boom")],
      st.done = true) :=
  ⟨(C1_exactly_once_resolution Nat).1 [FutureState.fulfilled 9] [5] 0
      (FutureState.fulfilled 9) rfl rfl,
    (C1_exactly_once_resolution Nat).2.1 3
      [(FutureState.fulfilled 9, fun _ => .ok 5)] 0
      (FutureState.fulfilled 9, fun _ => .ok 5) rfl rfl,
    (C1_exactly_once_resolution Nat).2.2.1
      [FutureState.pending, FutureState.fulfilled 9] [5, 6] rfl,
    (C1_exactly_once_resolution Nat).2.2.2 3
      [((FutureState.pending : FutureState Nat), fun _ => .error "boom")]⟩

/-- C6: when the downstream batch call returns without raising but its
`results` entry is absent or does not hold exactly one result per request,
no result is delivered positionally: the whole batch is routed through the
individual per-item fallback. -/
theorem C6_shape_mismatch_triggers_fallback {α : Type} (max_retries : Nat)
    (batch : List (FutureState α × (Nat → Except String α)))
    (resp : Option (List α))
    (h : resp = none ∨ ∃ rs, resp = some rs ∧ rs.length ≠ batch.length) :
    process_batch_iteration max_retries batch (.ok resp) =
      handle_batch_error max_retries batch := by
  rcases h with h | ⟨rs, hrs, hlen⟩
  · subst h
    simp [process_batch_iteration, process_batch, split_response]
  · subst hrs
    simp [process_batch_iteration, process_batch, split_response, hlen]

/-- C6 witness: the spec's concrete instance — a 3-item batch whose
downstream response carries only 2 results is handled entirely by the
fallback path. -/
theorem C6_shape_mismatch_triggers_fallback_witness :
    process_batch_iteration 3
      [((FutureState.pending : FutureState Nat), fun _ => .ok 7),
        (FutureState.pending, fun _ => .ok 8),
        (FutureState.pending, fun _ => .ok 9)]
      (.ok (some [1, 2])) =
    handle_batch_error 3
      [((FutureState.pending : FutureState Nat), fun _ => .ok 7),
        (FutureState.pending, fun _ => .ok 8),
        (FutureState.pending, fun _ => .ok 9)] :=
  C6_shape_mismatch_triggers_fallback 3 _ (some [1, 2])
    (Or.inr ⟨[1, 2], rfl, by decide⟩)

/-- C7: on a batch success whose result list has exactly one entry per
request, request `i` is resolved with result `i`; a slot that is already
done keeps its value. -/
theorem C7_positional_result_mapping {α : Type} (max_retries : Nat)
    (batch : List (FutureState α × (Nat → Except String α))) (rs : List α)
    (hlen : rs.length = batch.length) (i : Nat)
    (p : FutureState α × (Nat → Except String α)) (r : α)
    (hb : batch[i]? = some p) (hr : rs[i]? = some r) :
    (process_batch_iteration max_retries batch (.ok (some rs)))[i]? =
      some (if p.1.done then p.1 else .fulfilled r) := by
  have hsplit : process_batch (.ok (some rs)) batch.length = .ok rs := by
    simp [process_batch, split_response, if_pos hlen]
  unfold process_batch_iteration
  rw [hsplit]
  have hb1 : (batch.map Prod.fst)[i]? = some p.1 := by
    rw [List.getElem?_map, hb]
    rfl
  exact distribute_results_getElem (batch.map Prod.fst) rs i p.1 r hb1 hr

/-- C7 witness: the spec's concrete instance — three pending submissions
and results `[1,2,3]`; the middle request resolves to 2. -/
theorem C7_positional_result_mapping_witness :
    (process_batch_iteration 3
      [((FutureState.pending : FutureState Nat), fun _ => .ok 7),
        (FutureState.pending, fun _ => .ok 8),
        (FutureState.pending, fun _ => .ok 9)]
      (.ok (some [1, 2, 3])))[1]? = some (FutureState.fulfilled 2) :=
  C7_positional_result_mapping 3
    [((FutureState.pending : FutureState Nat), fun _ => .ok 7),
      (FutureState.pending, fun _ => .ok 8),
      (FutureState.pending, fun _ => .ok 9)]
    [1, 2, 3] rfl 1 (FutureState.pending, fun _ => .ok 8) 2 rfl rfl

/-! ## Fallback retry schedule lemmas -/

theorem range_succ_pow_map (a k : Nat) :
    (List.range (k + 1)).map (fun j => 2 ^ (a + j)) =
      2 ^ a :: (List.range k).map (fun j => 2 ^ (a + 1 + j)) := by
  rw [List.range_succ_eq_map, List.map_cons, List.map_map]
  have hcomp : (fun j => 2 ^ (a + j)) ∘ Nat.succ =
      fun j => 2 ^ (a + 1 + j) := by
    funext j
    simp only [Function.comp_apply]
    congr 1
    omega
  rw [hcomp]
  norm_num

theorem process_with_retry_success {α : Type} (f : Nat → Except String α)
    (max_retries : Nat) (e : Nat → String) (r : α) :
    ∀ (k a : Nat), a + k ≤ max_retries →
      (∀ j, a ≤ j → j < a + k → f j = .error (e j)) →
      f (a + k) = .ok r →
      process_with_retry f max_retries a =
        (.ok r, (List.range k).map (fun j => 2 ^ (a + j))) := by
  intro k
  induction k with
  | zero =>
    intro a _ _ hok
    rw [Nat.add_zero] at hok
    rw [process_with_retry, hok]
    rfl
  | succ k ih =>
    intro a hle herr hok
    have ha : f a = .error (e a) := herr a le_rfl (by omega)
    have hrest := ih (a + 1) (by omega)
      (fun j hj1 hj2 => herr j (by omega) (by omega))
      (by rw [show a + 1 + k = a + (k + 1) by omega]; exact hok)
    rw [process_with_retry]
    simp only [ha, dif_pos (show a < max_retries by omega), hrest]
    rw [range_succ_pow_map]

theorem process_with_retry_exhaust {α : Type} (f : Nat → Except String α)
    (max_retries : Nat) (e : Nat → String) :
    ∀ (k a : Nat), a + k = max_retries →
      (∀ j, a ≤ j → j ≤ max_retries → f j = .error (e j)) →
      process_with_retry f max_retries a =
        ((.error (e max_retries) : Except String α),
          (List.range k).map (fun j => 2 ^ (a + j))) := by
  intro k
  induction k with
  | zero =>
    intro a ha herr
    have hfa : f a = .error (e a) := herr a le_rfl (by omega)
    rw [process_with_retry]
    simp only [hfa, dif_neg (show ¬ a < max_retries by omega),
      List.range_zero, List.map_nil]
    rw [show a = max_retries by omega]
  | succ k ih =>
    intro a ha herr
    have hfa : f a = .error (e a) := herr a le_rfl (by omega)
    have hrest := ih (a + 1) (by omega)
      (fun j hj1 hj2 => herr j (by omega) hj2)
    rw [process_with_retry]
    simp only [hfa, dif_pos (show a < max_retries by omega), hrest]
    rw [range_succ_pow_map]

/-- C8: after a batch failure, every request is retried independently with
only its own payload. The fallback outcome at index `i` depends only on
entry `i` (a sibling's failures are invisible to it); a pending request's
slot receives exactly the result of its own retried processing; a request
whose first `k` attempts fail and whose attempt `k` succeeds is resolved
with that result after backoff delays `2^0, ..., 2^(k-1)`; and a request
whose attempts `0..maxRetries` all fail has the terminal failure of its
last attempt delivered to its own slot after delays
`2^0, ..., 2^(maxRetries-1)`. -/
theorem C8_fallback_isolation_and_retry_schedule (α : Type) :
    (∀ (max_retries : Nat)
      (b1 b2 : List (FutureState α × (Nat → Except String α))) (i : Nat),
      b1[i]? = b2[i]? →
      (handle_batch_error max_retries b1)[i]? =
        (handle_batch_error max_retries b2)[i]?) ∧
    (∀ (max_retries : Nat)
      (batch : List (FutureState α × (Nat → Except String α))) (i : Nat)
      (p : FutureState α × (Nat → Except String α)),
      batch[i]? = some p →
      (handle_batch_error max_retries batch)[i]? =
        some (handle_one max_retries p)) ∧
    (∀ (f : Nat → Except String α) (max_retries k : Nat) (e : Nat → String)
      (r : α), k ≤ max_retries →
      (∀ j, j < k → f j = .error (e j)) → f k = .ok r →
      process_with_retry f max_retries 0 =
        (.ok r, (List.range k).map (fun j => 2 ^ j))) ∧
    (∀ (f : Nat → Except String α) (max_retries : Nat) (e : Nat → String),
      (∀ j, j ≤ max_retries → f j = .error (e j)) →
      process_with_retry f max_retries 0 =
        (.error (e max_retries),
          (List.range max_retries).map (fun j => 2 ^ j))) := by
  refine ⟨?_, ?_, ?_, ?_⟩
  · intro mr b1 b2 i h
    unfold handle_batch_error
    rw [List.getElem?_map, List.getElem?_map, h]
  · intro mr batch i p hb
    exact handle_batch_error_getElem mr batch i p hb
  · intro f mr k e r hk herr hok
    have h := process_with_retry_success f mr e r k 0 (by omega)
      (fun j hj1 hj2 => herr j (by omega)) (by rw [Nat.zero_add]; exact hok)
    rw [h]
    simp only [Nat.zero_add]
  · intro f mr e herr
    have h := process_with_retry_exhaust f mr e mr 0 (by omega)
      (fun j hj1 hj2 => herr j hj2)
    rw [h]
    simp only [Nat.zero_add]

/-- C8 witness: a two-entry batch where only the sibling differs leaves
index 0 unchanged; a pending slot gets its own retried outcome; a request
succeeding on attempt 2 of 3 resolves with delays `[1, 2]`; a request
failing attempts 0 and 1 with `maxRetries = 1` fails with its last error
after delay `[1]`. -/
theorem C8_fallback_isolation_and_retry_schedule_witness :
    (handle_batch_error 3
        [((FutureState.pending : FutureState Nat), fun _ => .ok 5),
          (FutureState.pending, fun _ => .error "x")])[0]? =
      (handle_batch_error 3
        [((FutureState.pending : FutureState Nat), fun _ => .ok 5),
          (FutureState.pending, fun _ => .ok 9)])[0]? ∧
    (handle_batch_error 3
        [((FutureState.pending : FutureState Nat), fun _ => .ok 5)])[0]? =
      some (handle_one 3
        ((FutureState.pending : FutureState Nat), fun _ => .ok 5)) ∧
    process_with_retry
        (fun j => if j < 2 then (.error "boom" : Except String Nat)
          else .ok 42) 3 0 =
      (.ok 42, (List.range 2).map (fun j => 2 ^ j)) ∧
    process_with_retry (fun _ => (.error "boom" : Except String Nat)) 1 0 =
      (.error "boom", (List.range 1).map (fun j => 2 ^ j)) :=
  ⟨(C8_fallback_isolation_and_retry_schedule Nat).1 3
      [((FutureState.pending : FutureState Nat), fun _ => .ok 5),
        (FutureState.pending, fun _ => .error "x")]
      [((FutureState.pending : FutureState Nat), fun _ => .ok 5),
        (FutureState.pending, fun _ => .ok 9)] 0 rfl,
    (C8_fallback_isolation_and_retry_schedule Nat).2.1 3
      [((FutureState.pending : FutureState Nat), fun _ => .ok 5)] 0
      ((FutureState.pending : FutureState Nat), fun _ => .ok 5) rfl,
    (C8_fallback_isolation_and_retry_schedule Nat).2.2.1
      (fun j => if j < 2 then (.error "boom" : Except String Nat) else .ok 42)
      3 2 (fun _ => "boom") 42 (by decide)
      (by intro j hj; interval_cases j <;> rfl) rfl,
    (C8_fallback_isolation_and_retry_schedule Nat).2.2.2
      (fun _ => (.error "boom" : Except String Nat)) 1 (fun _ => "boom")
      (fun j _ => rfl)⟩

end CryptoMcp
